import Mathlib

/-!
# Verification of ogg-coverart's metadata extraction and encoding

A shallow embedding of `src/main.rs` of the `ogg-coverart` program: the
`MetadataBlockPicture` record, its extractors `from_png` / `from_jpeg`
(over the parsed container info that the external `png` / `jpeg_decoder`
crates deliver), the binary serializer `write_to`, and the output-form
and input-format-resolution logic of `run`.

Bytes are modelled as `Nat` (well-formedness `< 256` carried as a
hypothesis where it matters), byte streams as `List Nat`, Rust's
`u32` fields as `Nat` with the `< 2^32` representation invariant, and
panics (`expect`) / `bail!` as `Except String`.
-/

namespace OggCoverart

/-- Big-endian byte serialization of a `u32`, embedding Rust's
`u32::to_be_bytes` as used by `write_u32b` (src/main.rs lines 27-37).
For `n < 2^32` these are the four big-endian bytes of `n`. -/
def u32be (n : Nat) : List Nat :=
  [n / 16777216 % 256, n / 65536 % 256, n / 256 % 256, n % 256]

/-- Embeds Rust's `usize::try_into::<u32>() .expect(msg)` from `write_to`:
succeeds exactly when the value is representable in 32 bits, otherwise the
panic is modelled as an `Except.error` carrying the panic message. -/
def tryIntoU32 (n : Nat) (msg : String) : Except String Nat :=
  if n < 4294967296 then Except.ok n else Except.error msg

/-- The supported input image formats (src/main.rs `enum ImageType`). -/
inductive ImageType
  | Png
  | Jpeg
  deriving DecidableEq, Repr

/-- The supported output forms (src/main.rs `enum OutputFormat`). -/
inductive OutputFormat
  | Binary
  | Base64
  | FFMetadata
  deriving DecidableEq, Repr

/-- An image file and its extracted metadata
(src/main.rs `struct MetadataBlockPicture`). The Rust `mime: &str` field
is modelled by its UTF-8 bytes; `data: &[u8]` by its bytes. -/
structure MetadataBlockPicture where
  mime : List Nat
  width : Nat
  height : Nat
  bit_depth : Nat
  data : List Nat
  deriving DecidableEq, Repr

/-- The UTF-8 bytes of the ASCII string `image/png`. -/
def pngMime : List Nat := [105, 109, 97, 103, 101, 47, 112, 110, 103]

/-- The UTF-8 bytes of the ASCII string `image/jpeg`. -/
def jpegMime : List Nat := [105, 109, 97, 103, 101, 47, 106, 112, 101, 103]

/-- PNG color types, embedding `png::ColorType` as matched by `from_png`. -/
inductive ColorType
  | Grayscale
  | Rgb
  | Indexed
  | GrayscaleAlpha
  | Rgba
  deriving DecidableEq, Repr

/-- PNG sample depths, embedding `png::BitDepth` as matched by `from_png`. -/
inductive BitDepth
  | One
  | Two
  | Four
  | Eight
  | Sixteen
  deriving DecidableEq, Repr

/-- The header information the external `png` crate parses out of a valid
PNG image: color type, per-sample bit depth, and pixel dimensions
(the fields of `png::Info` read by `from_png`). -/
structure PngInfo where
  color_type : ColorType
  bit_depth : BitDepth
  width : Nat
  height : Nat
  deriving DecidableEq, Repr

/-- JPEG pixel formats, embedding `jpeg_decoder::PixelFormat` as matched by
`from_jpeg`. -/
inductive PixelFormat
  | L8
  | L16
  | RGB24
  | CMYK32
  deriving DecidableEq, Repr

/-- The frame-header information the external `jpeg_decoder` crate parses out
of a valid JPEG image (the fields of `jpeg_decoder::ImageInfo` read by
`from_jpeg`; `width`/`height` are `u16` in Rust). -/
structure JpegInfo where
  pixel_format : PixelFormat
  width : Nat
  height : Nat
  deriving DecidableEq, Repr

/-- The channel-count match of `from_png` (src/main.rs lines 79-85). -/
def num_channels : ColorType → Nat
  | ColorType.Grayscale => 1
  | ColorType.Rgb => 3
  | ColorType.Indexed => 1
  | ColorType.GrayscaleAlpha => 2
  | ColorType.Rgba => 4

/-- The per-channel bit count match of `from_png` (src/main.rs lines 87-93). -/
def bits_per_channel : BitDepth → Nat
  | BitDepth.One => 1
  | BitDepth.Two => 2
  | BitDepth.Four => 4
  | BitDepth.Eight => 8
  | BitDepth.Sixteen => 16

namespace MetadataBlockPicture

/-- Embeds `MetadataBlockPicture::from_png` (src/main.rs lines 68-104) over
the already-parsed header info: the external `png` crate's parsing of the
raw bytes into `PngInfo` is the library boundary; this definition covers
the metadata derivation the program performs on the parse result. -/
def from_png (info : PngInfo) (data : List Nat) : MetadataBlockPicture :=
  { mime := pngMime
    width := info.width
    height := info.height
    bit_depth := num_channels info.color_type * bits_per_channel info.bit_depth
    data := data }

/-- Embeds `MetadataBlockPicture::from_jpeg` (src/main.rs lines 107-128) over
the already-parsed frame-header info delivered by the external
`jpeg_decoder` crate. -/
def from_jpeg (info : JpegInfo) (data : List Nat) : MetadataBlockPicture :=
  { mime := jpegMime
    width := info.width
    height := info.height
    bit_depth :=
      match info.pixel_format with
      | PixelFormat.L8 => 8
      | PixelFormat.L16 => 16
      | PixelFormat.RGB24 => 24
      | PixelFormat.CMYK32 => 32
    data := data }

/-- Embeds `MetadataBlockPicture::write_to` (src/main.rs lines 139-156).
The writer is modelled as an accumulated byte list; each `write_u32b`
appends four big-endian bytes, each `write_all` appends the bytes verbatim.
The two `expect` panics on `try_into` overflow become `Except.error` with
the panic message. -/
def write_to (m : MetadataBlockPicture) : Except String (List Nat) := do
  let buf := u32be 3
  let mimeLen ← tryIntoU32 m.mime.length "MIME type length overflow"
  let buf := buf ++ u32be mimeLen
  let buf := buf ++ m.mime
  let buf := buf ++ u32be 0
  let buf := buf ++ u32be m.width
  let buf := buf ++ u32be m.height
  let buf := buf ++ u32be m.bit_depth
  let buf := buf ++ u32be 0
  let dataLen ← tryIntoU32 m.data.length "data length overflow"
  let buf := buf ++ u32be dataLen
  let buf := buf ++ m.data
  Except.ok buf

end MetadataBlockPicture

/-! ## Spec-side decoder of the binary record layout

`parseRecord` is written from the layout table of spec §4.2, not from the
source (the program has no decoder); it is the second definition a
round-trip claim compares `write_to` against. -/

/-- The ten fields of the §4.2 record layout, as a decoder recovers them. -/
structure ParsedRecord where
  picture_type : Nat
  mime_length : Nat
  mime : List Nat
  description_length : Nat
  width : Nat
  height : Nat
  bit_depth : Nat
  index_color_count : Nat
  data_length : Nat
  data : List Nat
  deriving DecidableEq, Repr

/-- Read one 4-byte big-endian unsigned integer off the front of a stream. -/
def readU32 : List Nat → Option (Nat × List Nat)
  | a :: b :: c :: d :: rest =>
      some (a * 16777216 + b * 65536 + c * 256 + d, rest)
  | _ => none

/-- Read exactly `n` bytes off the front of a stream. -/
def readBytes (n : Nat) (l : List Nat) : Option (List Nat × List Nat) :=
  if n ≤ l.length then some (l.take n, l.drop n) else none

/-- Decoder of the §4.2 record layout: type, MIME length, MIME bytes,
description length, width, height, bit depth, indexed-color count, data
length, data — each fixed-width field 4-byte big-endian, consuming the
whole stream. Written from the spec's field table. -/
def parseRecord (bs : List Nat) : Option ParsedRecord := do
  let (ty, bs) ← readU32 bs
  let (mimeLen, bs) ← readU32 bs
  let (mime, bs) ← readBytes mimeLen bs
  let (descLen, bs) ← readU32 bs
  let (w, bs) ← readU32 bs
  let (h, bs) ← readU32 bs
  let (bd, bs) ← readU32 bs
  let (idx, bs) ← readU32 bs
  let (dataLen, bs) ← readU32 bs
  let (dat, bs) ← readBytes dataLen bs
  if bs.isEmpty then
    some ⟨ty, mimeLen, mime, descLen, w, h, bd, idx, dataLen, dat⟩
  else
    none

/-! ## Base64 and the output forms of `run`

Modelled from the spec: the program delegates base64 encoding to the
external `base64` crate (`base64::STANDARD` config, src/main.rs line 272),
whose code is not part of this repository; `base64Encode` follows the
spec's words — RFC 4648 standard alphabet, padded, no line wrapping.
`base64Decode` is the spec-side inverse used to state the round-trip. -/

/-- Modelled from the spec: the RFC 4648 standard-alphabet value-to-byte
table (`A`-`Z`, `a`-`z`, `0`-`9`, `+`, `/`), as ASCII codes. -/
def encChar (s : Nat) : Nat :=
  if s < 26 then 65 + s
  else if s < 52 then 97 + (s - 26)
  else if s < 62 then 48 + (s - 52)
  else if s = 62 then 43
  else 47

/-- Modelled from the spec: the inverse of the RFC 4648 standard-alphabet
table, taking an ASCII code back to its 6-bit value. -/
def decChar (c : Nat) : Nat :=
  if 65 ≤ c ∧ c ≤ 90 then c - 65
  else if 97 ≤ c ∧ c ≤ 122 then c - 97 + 26
  else if 48 ≤ c ∧ c ≤ 57 then c - 48 + 52
  else if c = 43 then 62
  else 63

/-- Modelled from the spec: RFC 4648 standard base64 encoding with padding
(`=` is ASCII 61), one contiguous line, as produced by the external
`base64` crate with the `STANDARD` config. -/
def base64Encode : List Nat → List Nat
  | [] => []
  | [a] => [encChar (a / 4), encChar (a % 4 * 16), 61, 61]
  | [a, b] =>
      [encChar (a / 4), encChar (a % 4 * 16 + b / 16), encChar (b % 16 * 4), 61]
  | a :: b :: c :: rest =>
      encChar (a / 4) :: encChar (a % 4 * 16 + b / 16) ::
        encChar (b % 16 * 4 + c / 64) :: encChar (c % 64) :: base64Encode rest

/-- Modelled from the spec: RFC 4648 standard base64 decoding of a padded
encoding, the spec-side inverse against which the encoded output is
compared. -/
def base64Decode : List Nat → List Nat
  | w :: x :: y :: z :: rest =>
      if z = 61 then
        if y = 61 then [decChar w * 4 + decChar x / 16]
        else [decChar w * 4 + decChar x / 16, decChar x % 16 * 16 + decChar y / 4]
      else
        (decChar w * 4 + decChar x / 16) :: (decChar x % 16 * 16 + decChar y / 4) ::
          (decChar y % 4 * 64 + decChar z) :: base64Decode rest
  | _ => []

/-- The UTF-8 bytes of the literal `;FFMETADATA1\nMETADATA_BLOCK_PICTURE=`
written by `run` (src/main.rs line 270). -/
def ffmetadataPrefix : List Nat :=
  [59, 70, 70, 77, 69, 84, 65, 68, 65, 84, 65, 49, 10,
   77, 69, 84, 65, 68, 65, 84, 65, 95, 66, 76, 79, 67, 75, 95,
   80, 73, 67, 84, 85, 82, 69, 61]

/-- Embeds the output-form dispatch of `run` (src/main.rs lines 265-278):
`Binary` writes the record bytes alone; `Base64` writes the base64 form of
the record followed by one newline (ASCII 10); `FFMetadata` first writes
the header prefix, then the same base64 form, then one newline. -/
def outputBytes (fmt : OutputFormat) (m : MetadataBlockPicture) :
    Except String (List Nat) := do
  let record ← m.write_to
  match fmt with
  | OutputFormat.Binary => Except.ok record
  | OutputFormat.Base64 => Except.ok (base64Encode record ++ [10])
  | OutputFormat.FFMetadata =>
      Except.ok (ffmetadataPrefix ++ base64Encode record ++ [10])

/-! ## Input-format resolution of `run` -/

/-- The `bail!` diagnostic of `run` for an unresolvable input format
(src/main.rs lines 237-241), with the source text's apostrophe spelled out
and its second line elided. -/
def unknownImageTypeError : String :=
  "cannot determine image type (missing or unrecognized file extension)"

/-- Embeds the `input_type` resolution of `run` (src/main.rs lines 229-242):
the `--png` flag wins, then the `--jpeg` flag, then the filename extension
is matched byte-exactly against `png`, `jpg`, `jpeg`; anything else is the
`bail!` input-resolution error. `ext` is
`input_path.extension().and_then(OsStr::to_str)`. -/
def resolveInputType (forcePng forceJpeg : Bool) (ext : Option String) :
    Except String ImageType :=
  if forcePng then Except.ok ImageType.Png
  else if forceJpeg then Except.ok ImageType.Jpeg
  else
    match ext with
    | some "png" => Except.ok ImageType.Png
    | some "jpg" => Except.ok ImageType.Jpeg
    | some "jpeg" => Except.ok ImageType.Jpeg
    | _ => Except.error unknownImageTypeError

/-- Embeds the pipeline order of `run` (src/main.rs lines 228-278): the
input format is resolved first; only then is the input read and handed to
the extractor (`extract`, standing for `MetadataBlockPicture::from_type`
applied to the file's bytes), and the chosen output form is produced. -/
def runPipeline (forcePng forceJpeg : Bool) (ext : Option String)
    (fmt : OutputFormat)
    (extract : ImageType → Except String MetadataBlockPicture) :
    Except String (List Nat) := do
  let t ← resolveInputType forcePng forceJpeg ext
  let m ← extract t
  outputBytes fmt m

/-! ## Helper lemmas -/

theorem u32be_length (n : Nat) : (u32be n).length = 4 := rfl

/-- `write_to` succeeds exactly when both variable lengths fit in 32 bits,
and then the output is the nine-field concatenation in source order. -/
theorem write_to_ok_iff (m : MetadataBlockPicture) (bs : List Nat) :
    m.write_to = Except.ok bs ↔
      m.mime.length < 4294967296 ∧ m.data.length < 4294967296 ∧
        bs = u32be 3 ++ u32be m.mime.length ++ m.mime ++ u32be 0 ++
          u32be m.width ++ u32be m.height ++ u32be m.bit_depth ++ u32be 0 ++
          u32be m.data.length ++ m.data := by
  by_cases h1 : m.mime.length < 4294967296 <;>
    by_cases h2 : m.data.length < 4294967296 <;>
      simp [MetadataBlockPicture.write_to, tryIntoU32, h1, h2, bind, Except.bind,
        eq_comm]

theorem readU32_u32be (n : Nat) (rest : List Nat) :
    readU32 (u32be n ++ rest) = some (n % 4294967296, rest) := by
  have h : n / 16777216 % 256 * 16777216 + n / 65536 % 256 * 65536 +
      n / 256 % 256 * 256 + n % 256 = n % 4294967296 := by omega
  simp [u32be, readU32, h]

theorem readBytes_append (l rest : List Nat) :
    readBytes l.length (l ++ rest) = some (l, rest) := by
  simp [readBytes]

/-! ## Claim theorems -/

/-- C1: `write_to` emits exactly the nine-field layout in strict order —
picture type constant 3, MIME length, MIME bytes, description length
constant 0, width, height, bit depth, indexed-color count constant 0, data
length, then the raw data verbatim — every fixed-width field as a 4-byte
big-endian integer with no padding between fields; in particular a record
with mime `image/png`, width 100, height 200, bit depth 24 begins
`00 00 00 03 00 00 00 09`, ASCII `image/png`, `00 00 00 00`, `00 00 00 64`,
`00 00 00 C8`, `00 00 00 18`, `00 00 00 00`, then data length and data. -/
theorem write_to_nine_field_layout (m : MetadataBlockPicture)
    (hm : m.mime.length < 4294967296) (hd : m.data.length < 4294967296) :
    m.write_to =
      Except.ok
        (u32be 3 ++ u32be m.mime.length ++ m.mime ++ u32be 0 ++ u32be m.width ++
          u32be m.height ++ u32be m.bit_depth ++ u32be 0 ++ u32be m.data.length ++
          m.data) ∧
    (m.mime = pngMime → m.width = 100 → m.height = 200 → m.bit_depth = 24 →
      m.write_to =
        Except.ok
          ([0, 0, 0, 3, 0, 0, 0, 9] ++ pngMime ++
            [0, 0, 0, 0, 0, 0, 0, 100, 0, 0, 0, 200, 0, 0, 0, 24, 0, 0, 0, 0] ++
            u32be m.data.length ++ m.data)) := by
  constructor
  · exact (write_to_ok_iff m _).mpr ⟨hm, hd, rfl⟩
  · intro hmime hw hh hb
    rw [write_to_ok_iff]
    refine ⟨hm, hd, ?_⟩
    rw [hmime, hw, hh, hb]
    simp [pngMime, u32be]

/-- Witness for C1 at a concrete record. -/
theorem write_to_nine_field_layout_witness :
    MetadataBlockPicture.write_to ⟨pngMime, 100, 200, 24, [1, 2, 3]⟩ =
      Except.ok
        ([0, 0, 0, 3, 0, 0, 0, 9] ++ pngMime ++
          [0, 0, 0, 0, 0, 0, 0, 100, 0, 0, 0, 200, 0, 0, 0, 24, 0, 0, 0, 0] ++
          u32be 3 ++ [1, 2, 3]) :=
  (write_to_nine_field_layout ⟨pngMime, 100, 200, 24, [1, 2, 3]⟩ (by decide)
    (by decide)).2 rfl rfl rfl rfl

/-- C3: a MIME length or data length not representable as an unsigned
32-bit integer makes encoding a fatal error with the corresponding
overflow message, and a successful encoding guarantees both lengths were
representable — nothing is ever silently truncated. -/
theorem write_to_overflow_fatal (m : MetadataBlockPicture) :
    (4294967296 ≤ m.mime.length →
      m.write_to = Except.error "MIME type length overflow") ∧
    (m.mime.length < 4294967296 → 4294967296 ≤ m.data.length →
      m.write_to = Except.error "data length overflow") ∧
    (∀ bs, m.write_to = Except.ok bs →
      m.mime.length < 4294967296 ∧ m.data.length < 4294967296) := by
  refine ⟨fun h => ?_, fun h1 h2 => ?_, fun bs hbs => ?_⟩
  · simp [MetadataBlockPicture.write_to, tryIntoU32, bind, Except.bind,
      show ¬m.mime.length < 4294967296 by omega]
  · simp [MetadataBlockPicture.write_to, tryIntoU32, h1, bind, Except.bind,
      show ¬m.data.length < 4294967296 by omega]
  · have := (write_to_ok_iff m bs).mp hbs
    exact ⟨this.1, this.2.1⟩

/-- Witness for C3: a 2^32-byte MIME string and a 2^32-byte data buffer
each trigger their fatal overflow error, and a small record encodes. -/
theorem write_to_overflow_fatal_witness :
    MetadataBlockPicture.write_to ⟨List.replicate 4294967296 0, 0, 0, 0, []⟩ =
      Except.error "MIME type length overflow" ∧
    MetadataBlockPicture.write_to ⟨pngMime, 0, 0, 0, List.replicate 4294967296 0⟩ =
      Except.error "data length overflow" ∧
    (pngMime.length < 4294967296 ∧ ([1, 2, 3] : List Nat).length < 4294967296) :=
  ⟨(write_to_overflow_fatal _).1 (by rw [List.length_replicate]),
   (write_to_overflow_fatal _).2.1 (by decide) (by rw [List.length_replicate]),
   (write_to_overflow_fatal ⟨pngMime, 100, 200, 24, [1, 2, 3]⟩).2.2 _
     ((write_to_ok_iff _ _).mpr ⟨by decide, by decide, rfl⟩)⟩

/-- C5 counterexample: a record with the 9-byte MIME `image/png` and 3
data bytes encodes to 44 bytes, not `36 + 9 + 3 = 48`: the layout has only
eight fixed 4-byte fields (32 bytes), since the ninth header field — the
MIME bytes — is variable-length. -/
theorem write_to_total_length_cex :
    MetadataBlockPicture.write_to ⟨pngMime, 100, 200, 24, [1, 2, 3]⟩ =
      Except.ok
        [0, 0, 0, 3, 0, 0, 0, 9, 105, 109, 97, 103, 101, 47, 112, 110, 103,
         0, 0, 0, 0, 0, 0, 0, 100, 0, 0, 0, 200, 0, 0, 0, 24, 0, 0, 0, 0,
         0, 0, 0, 3, 1, 2, 3] ∧
    ([0, 0, 0, 3, 0, 0, 0, 9, 105, 109, 97, 103, 101, 47, 112, 110, 103,
      0, 0, 0, 0, 0, 0, 0, 100, 0, 0, 0, 200, 0, 0, 0, 24, 0, 0, 0, 0,
      0, 0, 0, 3, 1, 2, 3] : List Nat).length = 44 ∧
    36 + pngMime.length + [1, 2, 3].length = 48 := by
  refine ⟨?_, by decide, by decide⟩
  exact (write_to_ok_iff _ _).mpr ⟨by decide, by decide, by decide⟩

/-- C5 (amended): the encoded record's total length is
`32 + len(mime) + len(data)`, 32 being the sum of the eight fixed 4-byte
fields (picture type, MIME length, description length, width, height, bit
depth, indexed-color count, data length). -/
theorem write_to_total_length (m : MetadataBlockPicture)
    (hm : m.mime.length < 4294967296) (hd : m.data.length < 4294967296) :
    ∃ bs, m.write_to = Except.ok bs ∧
      bs.length = 32 + m.mime.length + m.data.length := by
  refine ⟨u32be 3 ++ u32be m.mime.length ++ m.mime ++ u32be 0 ++ u32be m.width ++
      u32be m.height ++ u32be m.bit_depth ++ u32be 0 ++ u32be m.data.length ++
      m.data, (write_to_ok_iff m _).mpr ⟨hm, hd, rfl⟩, ?_⟩
  simp only [List.length_append, u32be_length]
  omega

/-- Witness for C5 at a concrete record. -/
theorem write_to_total_length_witness :
    ∃ bs, MetadataBlockPicture.write_to ⟨pngMime, 100, 200, 24, [1, 2, 3]⟩ =
        Except.ok bs ∧
      bs.length = 32 + pngMime.length + [1, 2, 3].length :=
  write_to_total_length ⟨pngMime, 100, 200, 24, [1, 2, 3]⟩ (by decide) (by decide)

/-- C2: for every parsed PNG header whose color model and sample depth are
in the supported enumeration, `from_png` returns
`bit_depth = channels × bits_per_sample` with the channel mapping
grayscale→1, RGB→3, indexed→1, grayscale+alpha→2, RGBA→4 and
bits_per_sample ∈ {1,2,4,8,16}, and the MIME field equal to the bytes of
`image/png`; a grayscale-alpha 8-bit PNG yields `bit_depth = 16`. -/
theorem from_png_bit_depth (info : PngInfo) (data : List Nat) :
    (MetadataBlockPicture.from_png info data).bit_depth =
      num_channels info.color_type * bits_per_channel info.bit_depth ∧
    (MetadataBlockPicture.from_png info data).mime = pngMime ∧
    pngMime = "image/png".toList.map Char.toNat ∧
    num_channels ColorType.Grayscale = 1 ∧
    num_channels ColorType.Rgb = 3 ∧
    num_channels ColorType.Indexed = 1 ∧
    num_channels ColorType.GrayscaleAlpha = 2 ∧
    num_channels ColorType.Rgba = 4 ∧
    (∀ d, bits_per_channel d ∈ [1, 2, 4, 8, 16]) ∧
    (MetadataBlockPicture.from_png info data).width = info.width ∧
    (MetadataBlockPicture.from_png info data).height = info.height ∧
    (info.color_type = ColorType.GrayscaleAlpha → info.bit_depth = BitDepth.Eight →
      (MetadataBlockPicture.from_png info data).bit_depth = 16) := by
  refine ⟨rfl, rfl, by decide, rfl, rfl, rfl, rfl, rfl, fun d => ?_, rfl, rfl,
    fun hc hb => ?_⟩
  · cases d <;> simp [bits_per_channel]
  · simp [MetadataBlockPicture.from_png, hc, hb, num_channels, bits_per_channel]

/-- Witness for C2 at a concrete grayscale-alpha 8-bit header. -/
theorem from_png_bit_depth_witness :
    (MetadataBlockPicture.from_png
      ⟨ColorType.GrayscaleAlpha, BitDepth.Eight, 10, 20⟩ [1, 2]).bit_depth = 16 :=
  (from_png_bit_depth ⟨ColorType.GrayscaleAlpha, BitDepth.Eight, 10, 20⟩
    [1, 2]).2.2.2.2.2.2.2.2.2.2.2 rfl rfl

/-- C6: for every parsed JPEG frame header with a supported pixel format,
`from_jpeg` returns `bit_depth` per the mapping 8-bit luma→8, 16-bit
luma→16, 24-bit RGB→24, 32-bit CMYK→32, the MIME field equal to the bytes
of `image/jpeg`, and width/height taken from the frame header. -/
theorem from_jpeg_bit_depth (info : JpegInfo) (data : List Nat) :
    (MetadataBlockPicture.from_jpeg info data).mime = jpegMime ∧
    jpegMime = "image/jpeg".toList.map Char.toNat ∧
    (MetadataBlockPicture.from_jpeg info data).width = info.width ∧
    (MetadataBlockPicture.from_jpeg info data).height = info.height ∧
    (info.pixel_format = PixelFormat.L8 →
      (MetadataBlockPicture.from_jpeg info data).bit_depth = 8) ∧
    (info.pixel_format = PixelFormat.L16 →
      (MetadataBlockPicture.from_jpeg info data).bit_depth = 16) ∧
    (info.pixel_format = PixelFormat.RGB24 →
      (MetadataBlockPicture.from_jpeg info data).bit_depth = 24) ∧
    (info.pixel_format = PixelFormat.CMYK32 →
      (MetadataBlockPicture.from_jpeg info data).bit_depth = 32) := by
  refine ⟨rfl, by decide, rfl, rfl, fun h => ?_, fun h => ?_, fun h => ?_,
    fun h => ?_⟩ <;>
    simp [MetadataBlockPicture.from_jpeg, h]

/-- Witness for C6 at a concrete 24-bit RGB frame header. -/
theorem from_jpeg_bit_depth_witness :
    (MetadataBlockPicture.from_jpeg ⟨PixelFormat.RGB24, 10, 20⟩ [1, 2]).bit_depth
      = 24 :=
  (from_jpeg_bit_depth ⟨PixelFormat.RGB24, 10, 20⟩ [1, 2]).2.2.2.2.2.2.1 rfl

theorem readBytes_all (l : List Nat) : readBytes l.length l = some (l, []) := by
  simp [readBytes]

/-- C4: parsing the byte stream produced by `write_to` back into the ten
§4.2 layout fields reproduces the original mime, width, height, bit_depth
and raw data bytes exactly (and the constant fields 3, 0, 0 and the two
lengths). -/
theorem write_parse_roundtrip (m : MetadataBlockPicture)
    (hm : m.mime.length < 4294967296) (hd : m.data.length < 4294967296)
    (hw : m.width < 4294967296) (hh : m.height < 4294967296)
    (hb : m.bit_depth < 4294967296) :
    ∃ bs, m.write_to = Except.ok bs ∧
      parseRecord bs = some ⟨3, m.mime.length, m.mime, 0, m.width, m.height,
        m.bit_depth, 0, m.data.length, m.data⟩ := by
  refine ⟨_, (write_to_ok_iff m _).mpr ⟨hm, hd, rfl⟩, ?_⟩
  simp [parseRecord, readU32_u32be, readBytes_append, readBytes_all, bind,
    Option.bind, Nat.mod_eq_of_lt hm, Nat.mod_eq_of_lt hd, Nat.mod_eq_of_lt hw,
    Nat.mod_eq_of_lt hh, Nat.mod_eq_of_lt hb]

/-- Witness for C4 at a concrete record. -/
theorem write_parse_roundtrip_witness :
    ∃ bs, MetadataBlockPicture.write_to ⟨pngMime, 100, 200, 24, [1, 2, 3]⟩ =
        Except.ok bs ∧
      parseRecord bs = some ⟨3, pngMime.length, pngMime, 0, 100, 200, 24, 0,
        [1, 2, 3].length, [1, 2, 3]⟩ :=
  write_parse_roundtrip ⟨pngMime, 100, 200, 24, [1, 2, 3]⟩ (by decide) (by decide)
    (by decide) (by decide) (by decide)

theorem decChar_encChar : ∀ s, s < 64 → decChar (encChar s) = s := by decide

theorem encChar_ne_eq : ∀ s, s < 64 → encChar s ≠ 61 := by decide

/-- Decoding inverts encoding on any list of bytes. -/
theorem base64_decode_encode (l : List Nat) (h : ∀ b ∈ l, b < 256) :
    base64Decode (base64Encode l) = l := by
  induction l using base64Encode.induct with
  | case1 => rfl
  | case2 a =>
      have ha : a < 256 := h a (by simp)
      show base64Decode [encChar (a / 4), encChar (a % 4 * 16), 61, 61] = [a]
      have : base64Decode [encChar (a / 4), encChar (a % 4 * 16), 61, 61] =
          [decChar (encChar (a / 4)) * 4 + decChar (encChar (a % 4 * 16)) / 16] :=
        rfl
      rw [this, decChar_encChar _ (by omega), decChar_encChar _ (by omega)]
      simp only [List.cons.injEq, and_true]
      omega
  | case3 a b =>
      have ha : a < 256 := h a (by simp)
      have hb : b < 256 := h b (by simp)
      have hy : encChar (b % 16 * 4) ≠ 61 := encChar_ne_eq _ (by omega)
      show base64Decode [encChar (a / 4), encChar (a % 4 * 16 + b / 16),
        encChar (b % 16 * 4), 61] = [a, b]
      have hstep : base64Decode [encChar (a / 4), encChar (a % 4 * 16 + b / 16),
          encChar (b % 16 * 4), 61] =
          if encChar (b % 16 * 4) = 61 then
            [decChar (encChar (a / 4)) * 4 +
              decChar (encChar (a % 4 * 16 + b / 16)) / 16]
          else
            [decChar (encChar (a / 4)) * 4 +
              decChar (encChar (a % 4 * 16 + b / 16)) / 16,
             decChar (encChar (a % 4 * 16 + b / 16)) % 16 * 16 +
              decChar (encChar (b % 16 * 4)) / 4] := rfl
      rw [hstep, if_neg hy, decChar_encChar _ (by omega),
        decChar_encChar _ (by omega), decChar_encChar _ (by omega)]
      simp only [List.cons.injEq, and_true]
      exact ⟨by omega, by omega⟩
  | case4 a b c rest ih =>
      have ha : a < 256 := h a (by simp)
      have hb : b < 256 := h b (by simp)
      have hc : c < 256 := h c (by simp)
      have hrest : ∀ x ∈ rest, x < 256 := fun x hx => h x (by simp [hx])
      have hz : encChar (c % 64) ≠ 61 := encChar_ne_eq _ (by omega)
      show base64Decode (encChar (a / 4) :: encChar (a % 4 * 16 + b / 16) ::
        encChar (b % 16 * 4 + c / 64) :: encChar (c % 64) ::
        base64Encode rest) = a :: b :: c :: rest
      simp only [base64Decode, if_neg hz]
      rw [decChar_encChar _ (by omega), decChar_encChar _ (by omega),
        decChar_encChar _ (by omega), decChar_encChar _ (by omega), ih hrest]
      simp only [List.cons.injEq]
      exact ⟨by omega, by omega, by omega, trivial⟩

theorem u32be_mem_lt (n : Nat) : ∀ x ∈ u32be n, x < 256 := by
  intro x hx
  simp only [u32be, List.mem_cons, List.not_mem_nil, or_false] at hx
  rcases hx with rfl | rfl | rfl | rfl <;> omega

/-- Every byte of a successfully encoded record is below 256 whenever the
mime and data bytes are. -/
theorem write_to_bytes_lt (m : MetadataBlockPicture) (bs : List Nat)
    (hok : m.write_to = Except.ok bs)
    (hmime : ∀ b ∈ m.mime, b < 256) (hdata : ∀ b ∈ m.data, b < 256) :
    ∀ b ∈ bs, b < 256 := by
  obtain ⟨-, -, rfl⟩ := (write_to_ok_iff m bs).mp hok
  intro b hb
  simp only [List.mem_append] at hb
  rcases hb with ((((((((hb | hb) | hb) | hb) | hb) | hb) | hb) | hb) | hb) | hb
  exacts [u32be_mem_lt _ _ hb, u32be_mem_lt _ _ hb, hmime _ hb,
    u32be_mem_lt _ _ hb, u32be_mem_lt _ _ hb, u32be_mem_lt _ _ hb,
    u32be_mem_lt _ _ hb, u32be_mem_lt _ _ hb, u32be_mem_lt _ _ hb, hdata _ hb]

/-- C7: for a record that encodes successfully, the base64 output form is
the RFC 4648 standard-alphabet padded base64 encoding of the raw binary
form followed by exactly one newline; the ffmetadata form is the literal
`;FFMETADATA1\nMETADATA_BLOCK_PICTURE=` prefix followed by that same base64
text and one newline, so stripping the prefix and final newline and
base64-decoding recovers the raw binary output byte-for-byte; and the raw
binary form is emitted with no trailing newline. -/
theorem output_forms (m : MetadataBlockPicture) (bs : List Nat)
    (hok : m.write_to = Except.ok bs)
    (hmime : ∀ b ∈ m.mime, b < 256) (hdata : ∀ b ∈ m.data, b < 256) :
    outputBytes OutputFormat.Binary m = Except.ok bs ∧
    outputBytes OutputFormat.Base64 m = Except.ok (base64Encode bs ++ [10]) ∧
    outputBytes OutputFormat.FFMetadata m =
      Except.ok (ffmetadataPrefix ++ (base64Encode bs ++ [10])) ∧
    base64Decode (base64Encode bs) = bs ∧
    (∀ out, outputBytes OutputFormat.FFMetadata m = Except.ok out →
      base64Decode ((out.drop ffmetadataPrefix.length).dropLast) = bs) := by
  have hrt := base64_decode_encode bs (write_to_bytes_lt m bs hok hmime hdata)
  refine ⟨?_, ?_, ?_, hrt, ?_⟩
  · simp [outputBytes, hok, bind, Except.bind]
  · simp [outputBytes, hok, bind, Except.bind]
  · simp [outputBytes, hok, bind, Except.bind]
  · intro out hout
    simp only [outputBytes, hok, bind, Except.bind, Except.ok.injEq] at hout
    rw [← hout, List.append_assoc, List.drop_left, List.dropLast_concat]
    exact hrt

/-- Witness for C7 at a concrete record. -/
theorem output_forms_witness :
    outputBytes OutputFormat.Binary ⟨pngMime, 100, 200, 24, [1, 2, 3]⟩ =
      Except.ok
        [0, 0, 0, 3, 0, 0, 0, 9, 105, 109, 97, 103, 101, 47, 112, 110, 103,
         0, 0, 0, 0, 0, 0, 0, 100, 0, 0, 0, 200, 0, 0, 0, 24, 0, 0, 0, 0,
         0, 0, 0, 3, 1, 2, 3] ∧
    base64Decode (base64Encode
        [0, 0, 0, 3, 0, 0, 0, 9, 105, 109, 97, 103, 101, 47, 112, 110, 103,
         0, 0, 0, 0, 0, 0, 0, 100, 0, 0, 0, 200, 0, 0, 0, 24, 0, 0, 0, 0,
         0, 0, 0, 3, 1, 2, 3]) =
      [0, 0, 0, 3, 0, 0, 0, 9, 105, 109, 97, 103, 101, 47, 112, 110, 103,
       0, 0, 0, 0, 0, 0, 0, 100, 0, 0, 0, 200, 0, 0, 0, 24, 0, 0, 0, 0,
       0, 0, 0, 3, 1, 2, 3] :=
  (fun h => ⟨h.1, h.2.2.2.1⟩)
    (output_forms ⟨pngMime, 100, 200, 24, [1, 2, 3]⟩ _
      ((write_to_ok_iff _ _).mpr ⟨by decide, by decide, by decide⟩)
      (by decide) (by decide))

/-- C8: format resolution is sequential precedence — the explicit `--png`
override wins, then `--jpeg`; otherwise the filename suffix is sniffed with
`png`→PNG and `jpg`/`jpeg`→JPEG; with no override and no recognized
suffix the invocation fails with the input-resolution error, and the whole
pipeline returns that error irrespective of the extractor, i.e. before any
decoding of the file is attempted. -/
theorem input_format_resolution (ext : Option String) (fmt : OutputFormat)
    (extract : ImageType → Except String MetadataBlockPicture) :
    (∀ fj, resolveInputType true fj ext = Except.ok ImageType.Png) ∧
    resolveInputType false true ext = Except.ok ImageType.Jpeg ∧
    resolveInputType false false (some "png") = Except.ok ImageType.Png ∧
    resolveInputType false false (some "jpg") = Except.ok ImageType.Jpeg ∧
    resolveInputType false false (some "jpeg") = Except.ok ImageType.Jpeg ∧
    (∀ s, s ≠ "png" → s ≠ "jpg" → s ≠ "jpeg" →
      runPipeline false false (some s) fmt extract =
        Except.error unknownImageTypeError) ∧
    runPipeline false false none fmt extract =
      Except.error unknownImageTypeError := by
  refine ⟨fun fj => rfl, rfl, rfl, rfl, rfl, fun s h1 h2 h3 => ?_, rfl⟩
  have hres : resolveInputType false false (some s) =
      Except.error unknownImageTypeError := by
    unfold resolveInputType
    split <;> simp_all
  simp [runPipeline, hres, bind, Except.bind]

/-- Witness for C8 at a concrete unrecognized extension. -/
theorem input_format_resolution_witness :
    runPipeline false false (some "gif") OutputFormat.Binary
      (fun _ => Except.ok ⟨pngMime, 1, 1, 1, []⟩) =
      Except.error unknownImageTypeError ∧
    resolveInputType true false (some "gif") = Except.ok ImageType.Png :=
  ⟨(input_format_resolution (some "gif") OutputFormat.Binary
      (fun _ => Except.ok ⟨pngMime, 1, 1, 1, []⟩)).2.2.2.2.2.1 "gif"
      (by decide) (by decide) (by decide),
   (input_format_resolution (some "gif") OutputFormat.Binary
      (fun _ => Except.ok ⟨pngMime, 1, 1, 1, []⟩)).1 false⟩

/-- C9: suffix sniffing is exact and byte-case-sensitive — a suffix is
recognized only when it is exactly `png`, `jpg` or `jpeg`, so uppercase or
mixed-case extensions such as `PNG`, `Png`, `JPG`, `JPEG` fall through to
the input-resolution error rather than selecting a format. -/
theorem extension_case_sensitive :
    resolveInputType false false (some "PNG") =
      Except.error unknownImageTypeError ∧
    resolveInputType false false (some "Png") =
      Except.error unknownImageTypeError ∧
    resolveInputType false false (some "JPG") =
      Except.error unknownImageTypeError ∧
    resolveInputType false false (some "JPEG") =
      Except.error unknownImageTypeError ∧
    (∀ s t, resolveInputType false false (some s) = Except.ok t →
      s = "png" ∨ s = "jpg" ∨ s = "jpeg") := by
  refine ⟨rfl, rfl, rfl, rfl, fun s t h => ?_⟩
  unfold resolveInputType at h
  split at h <;> try simp_all
  split at h <;> simp_all

/-- Witness for C9: the lowercase extension `png` is recognized. -/
theorem extension_case_sensitive_witness :
    "png" = "png" ∨ "png" = "jpg" ∨ "png" = "jpeg" :=
  extension_case_sensitive.2.2.2.2 "png" ImageType.Png rfl

theorem write_to_data_overflow (m : MetadataBlockPicture)
    (h1 : m.mime.length < 4294967296) (h2 : ¬m.data.length < 4294967296) :
    m.write_to = Except.error "data length overflow" := by
  simp [MetadataBlockPicture.write_to, tryIntoU32, h1, h2, bind, Except.bind]

/-- C10: every record the extractors produce carries the MIME bytes of
`image/png` (length 9) or `image/jpeg` (length 10), so the 32-bit
conversion of the MIME length in `write_to` always succeeds and the
`MIME type length overflow` panic branch is unreachable — the only
reachable overflow error for such records is the data-length one. -/
theorem extractor_mime_never_overflows :
    (∀ (info : PngInfo) (data : List Nat),
      (MetadataBlockPicture.from_png info data).mime.length = 9) ∧
    (∀ (info : JpegInfo) (data : List Nat),
      (MetadataBlockPicture.from_jpeg info data).mime.length = 10) ∧
    (∀ (info : PngInfo) (data : List Nat),
      tryIntoU32 (MetadataBlockPicture.from_png info data).mime.length
        "MIME type length overflow" = Except.ok 9) ∧
    (∀ (info : JpegInfo) (data : List Nat),
      tryIntoU32 (MetadataBlockPicture.from_jpeg info data).mime.length
        "MIME type length overflow" = Except.ok 10) ∧
    (∀ (info : PngInfo) (data : List Nat) (e : String),
      (MetadataBlockPicture.from_png info data).write_to = Except.error e →
        e = "data length overflow") ∧
    (∀ (info : JpegInfo) (data : List Nat) (e : String),
      (MetadataBlockPicture.from_jpeg info data).write_to = Except.error e →
        e = "data length overflow") := by
  refine ⟨fun info data => rfl, fun info data => rfl, fun info data => rfl,
    fun info data => rfl, fun info data e h => ?_, fun info data e h => ?_⟩
  · by_cases hd : data.length < 4294967296
    · rw [(write_to_ok_iff _ _).mpr
        ⟨(by decide : pngMime.length < 4294967296), hd, rfl⟩] at h
      cases h
    · rw [write_to_data_overflow _
        (by decide : pngMime.length < 4294967296) hd] at h
      exact (Except.error.inj h).symm
  · by_cases hd : data.length < 4294967296
    · rw [(write_to_ok_iff _ _).mpr
        ⟨(by decide : jpegMime.length < 4294967296), hd, rfl⟩] at h
      cases h
    · rw [write_to_data_overflow _
        (by decide : jpegMime.length < 4294967296) hd] at h
      exact (Except.error.inj h).symm

/-- Witness for C10: a PNG-extracted record with 2^32 data bytes errors
only with the data-length message, and the MIME length is 9. -/
theorem extractor_mime_never_overflows_witness :
    (MetadataBlockPicture.from_png ⟨ColorType.Rgb, BitDepth.Eight, 1, 1⟩
      [7]).mime.length = 9 ∧
    "data length overflow" = "data length overflow" :=
  ⟨extractor_mime_never_overflows.1 ⟨ColorType.Rgb, BitDepth.Eight, 1, 1⟩ [7],
   extractor_mime_never_overflows.2.2.2.2.1 ⟨ColorType.Rgb, BitDepth.Eight, 1, 1⟩
     (List.replicate 4294967296 0) "data length overflow"
     (write_to_data_overflow _ (by decide : pngMime.length < 4294967296)
       (by show ¬(List.replicate 4294967296 (0 : Nat)).length < 4294967296
           rw [List.length_replicate]
           omega))⟩

end OggCoverart
